import Mathlib

/-!
Shallow embedding of `thread_mill.py` and `tmill_dict.py` (hpmachining/thread_mill).

Numbers are modelled as rationals.  Python's `round(x, n)` (round to `n`
decimal places) is modelled by `roundTo n`, implemented as round-half-up via
the integer floor; Python rounds the underlying binary double to the nearest
decimal, which agrees with this model except on exact decimal ties, which the
binary doubles produced by the program essentially never hit.  The float
constant `math.sin(math.radians(45))` is modelled by the exact rational value
of that IEEE-754 double.  Python `ValueError`s raised by validation code are
modelled by `Except String`.
-/

/-- Python `round(x, n)`: round to `n` decimal places. -/
def roundTo (n : ℕ) (x : ℚ) : ℚ := (⌊x * 10 ^ n + 1 / 2⌋ : ℚ) / 10 ^ n

/-- `ScrewThread` attributes, in the order `__init__` assigns them
(`vars(self)` iterates in this insertion order). -/
structure ScrewThread where
  major_diameter : ℚ
  minor_diameter : ℚ
  depth : ℚ
  start_plane : ℚ
  tpi : ℚ
  pitch : ℚ

/-- `ScrewThread.__init__(major, minor, depth, start, pitch)`: `tpi` is
initialised to `0.0` and only set by `input_thread_info`. -/
def ScrewThread.init (major minor depth start pitch : ℚ) : ScrewThread :=
  ⟨major, minor, depth, start, 0, pitch⟩

/-- `ScrewThread.validate`: iterate over `vars(self)` in insertion order,
raising when any attribute other than `start_plane` is `<= 0`, then check
`minor_diameter >= major_diameter`. -/
def ScrewThread.validate (t : ScrewThread) : Except String Unit :=
  if t.major_diameter ≤ 0 then .error "major_diameter must be > 0.0"
  else if t.minor_diameter ≤ 0 then .error "minor_diameter must be > 0.0"
  else if t.depth ≤ 0 then .error "depth must be > 0.0"
  else if t.tpi ≤ 0 then .error "tpi must be > 0.0"
  else if t.pitch ≤ 0 then .error "pitch must be > 0.0"
  else if t.minor_diameter ≥ t.major_diameter then
    .error "Minor diameter must be less than Major diameter"
  else .ok ()

/-- `CuttingTool` attributes, in the order `__init__` assigns them. -/
structure CuttingTool where
  diameter : ℚ
  flutes : ℚ
  speed : ℚ
  feed : ℚ
  rpm : ℚ

/-- `CuttingTool.__init__(diameter, flutes, speed, feed)`: `rpm` is
initialised to `0.0` and only set by `input_tool_info`. -/
def CuttingTool.init (diameter flutes speed feed : ℚ) : CuttingTool :=
  ⟨diameter, flutes, speed, feed, 0⟩

/-- `CuttingTool.validate`: iterate over `vars(self)` in insertion order,
raising when any attribute (including the derived `rpm`) is `<= 0`. -/
def CuttingTool.validate (t : CuttingTool) : Except String Unit :=
  if t.diameter ≤ 0 then .error "diameter must be > 0.0"
  else if t.flutes ≤ 0 then .error "flutes must be > 0.0"
  else if t.speed ≤ 0 then .error "speed must be > 0.0"
  else if t.feed ≤ 0 then .error "feed must be > 0.0"
  else if t.rpm ≤ 0 then .error "rpm must be > 0.0"
  else .ok ()

/-- `BodyDetails.calc_pass_percentages` / `get_pass_percentages`: fixed
fraction table, `ValueError` unless `0 < passes < 5`. -/
def calc_pass_percentages (passes : ℤ) : Except String (List ℚ) :=
  if ¬(0 < passes ∧ passes < 5) then
    .error "is not a valid option for number of passes."
  else if passes = 1 then .ok [1]
  else if passes = 2 then .ok [0.65, 0.35]
  else if passes = 3 then .ok [0.50, 0.30, 0.20]
  else .ok [0.40, 0.27, 0.20, 0.13]

/-- The loop body of `calc_toolpath_radii` / `get_toolpath_radii`:
`current_radius = round(base_radius + total_stock * i + previous_radius, 4)`,
then `previous_radius = current_radius - base_radius`. -/
def radiiAux (base_radius total_stock : ℚ) : List ℚ → ℚ → List ℚ
  | [], _ => []
  | i :: rest, previous_radius =>
    let current_radius := roundTo 4 (base_radius + total_stock * i + previous_radius)
    current_radius :: radiiAux base_radius total_stock rest (current_radius - base_radius)

/-- `BodyDetails.calc_toolpath_radii` (identical to `get_toolpath_radii` in
`tmill_dict.py`): 5-decimal intermediates, 4-decimal radii. -/
def calc_toolpath_radii (thread : ScrewThread) (passes : List ℚ) (tool_diameter : ℚ) :
    List ℚ :=
  let total_stock := roundTo 5 ((thread.major_diameter - thread.minor_diameter) / 2)
  let base_radius := roundTo 5 ((thread.minor_diameter - tool_diameter) / 2)
  radiiAux base_radius total_stock passes 0

/-- The exact rational value of the IEEE-754 double
`math.sin(math.radians(45))`. -/
def sin_45 : ℚ := 6369051672525773 / 2 ^ 53

/-- `BodyDetails.calc_lead_arcs` (identical to `get_lead_radii`). -/
def calc_lead_arcs (radii : List ℚ) : List ℚ :=
  radii.map fun radius => roundTo 4 (radius * sin_45)

/-- `BodyDetails.calc_adjusted_feed`:
`tool.feed * (radius * 2.0) / (radius * 2.0 + tool.diameter)` per radius. -/
def calc_adjusted_feed (tool : CuttingTool) (radii : List ℚ) : List ℚ :=
  radii.map fun radius => tool.feed * (radius * 2) / (radius * 2 + tool.diameter)

/-- `BodyDetails.calc_feed_rate`: `feed_per_tooth * tool.flutes * tool.rpm`
for each adjusted feed. -/
def calc_feed_rate (tool : CuttingTool) (radii : List ℚ) : List ℚ :=
  (calc_adjusted_feed tool radii).map fun feed_per_tooth => feed_per_tooth * tool.flutes * tool.rpm

/-- `get_feed_adjustment` (`tmill_dict.py`): the bare factor
`(radius * 2.0) / (radius * 2.0 + tool_diameter)` per radius. -/
def get_feed_adjustment (radii : List ℚ) (tool_diameter : ℚ) : List ℚ :=
  radii.map fun adjust => adjust * 2 / (adjust * 2 + tool_diameter)

/-- The toolpath data `BodyDetails.__init__` stores on success. -/
structure BodyDetails where
  passes : List ℚ
  radii : List ℚ
  lead_arcs : List ℚ
  feed : List ℚ
  top_plane : ℚ
  lead_z : ℚ
  start_z : ℚ

/-- `BodyDetails.__init__`: validate the thread and the tool, reject a tool
strictly wider than the minor diameter, then compute passes, radii, lead
arcs, feed rates, `lead_z = round(.125 * pitch, 4)` and
`start_z = -(depth + lead_z)`. -/
def BodyDetails.make (thread : ScrewThread) (tool : CuttingTool) (number_of_passes : ℤ) :
    Except String BodyDetails :=
  match thread.validate with
  | .error e => .error e
  | .ok _ =>
    match tool.validate with
    | .error e => .error e
    | .ok _ =>
      if tool.diameter > thread.minor_diameter then
        .error "Tool diameter must be less than Minor diameter."
      else
        match calc_pass_percentages number_of_passes with
        | .error e => .error e
        | .ok passes =>
          let radii := calc_toolpath_radii thread passes tool.diameter
          let lead_z := roundTo 4 (0.125 * thread.pitch)
          .ok { passes := passes
                radii := radii
                lead_arcs := calc_lead_arcs radii
                feed := calc_feed_rate tool radii
                top_plane := thread.start_plane
                lead_z := lead_z
                start_z := -(thread.depth + lead_z) }

/-- The validation performed on the dictionary built by `get_thread_info` in
`tmill_dict.py`: every value except `"Starting plane"` must be `> 0`, and it
raises only when `Minor diameter > Major diameter` (note `>`: equality passes). -/
structure ThreadInfo where
  major_diameter : ℚ
  minor_diameter : ℚ
  thread_depth : ℚ
  start_plane : ℚ
  threads_per_inch : ℚ

/-- The `try` block of `get_thread_info` applied to already-numeric values. -/
def ThreadInfo.check (t : ThreadInfo) : Except String ThreadInfo :=
  if t.major_diameter ≤ 0 then .error "Major diameter must be > 0.0"
  else if t.minor_diameter ≤ 0 then .error "Minor diameter must be > 0.0"
  else if t.thread_depth ≤ 0 then .error "Thread depth must be > 0.0"
  else if t.threads_per_inch ≤ 0 then .error "Threads per inch must be > 0.0"
  else if t.minor_diameter > t.major_diameter then
    .error "Minor diameter must be less than Major diameter"
  else .ok t

/-- Python `str()` applied to a number, abstracted: any fixed rendering works
for the block-identity and block-count properties. -/
def fmtQ (q : ℚ) : String := toString q

/-- One iteration of the `for` loop of `post_body` (`thread_mill.py`): the
six-move motion block emitted for one pass. -/
def pass_block (top_plane : String) (start_z rapid_feed lead_z : ℚ) (pitchS : String)
    (radius lead_arc feedIn : ℚ) : String :=
  let feedR := roundTo 4 feedIn
  let start_x := roundTo 4 (lead_arc * sin_45)
  let start_y := -start_x
  "G90 G0 Z" ++ top_plane ++ "\n" ++
  "G91 G01 Z" ++ fmtQ start_z ++ " F" ++ fmtQ rapid_feed ++ "\n" ++
  "G01 X" ++ fmtQ start_x ++ " Y" ++ fmtQ start_y ++ " F" ++ fmtQ feedR ++ "\n" ++
  "G03 X" ++ fmtQ (roundTo 4 (radius - start_x)) ++ " Y" ++ fmtQ (-start_y) ++
    " Z" ++ fmtQ lead_z ++ " I0.0 J" ++ fmtQ (-start_y) ++ " F" ++ fmtQ feedR ++ "\n" ++
  "G03 X0.0 Y0.0 Z" ++ pitchS ++ " I" ++ fmtQ (roundTo 4 (-radius)) ++ " J0.0 F" ++
    fmtQ feedR ++ "\n" ++
  "G03 X" ++ fmtQ (-start_x) ++ " Y" ++ fmtQ (-start_y) ++ " Z" ++ fmtQ lead_z ++
    " I" ++ fmtQ (-start_x) ++ " J0.0 F" ++ fmtQ feedR ++ "\n" ++
  "G01 X" ++ fmtQ (-start_x) ++ " Y" ++ fmtQ start_y ++ " F" ++ fmtQ rapid_feed ++ "\n\n"

/-- The `for` loop of `post_body`: one motion block per element of
`zip(radii, lead_arcs, feed)`. -/
def pass_blocks (toolpath : BodyDetails) (thread : ScrewThread) (rapid_feedIn : ℚ) :
    List String :=
  (toolpath.radii.zip (toolpath.lead_arcs.zip toolpath.feed)).map
    fun t => pass_block (fmtQ toolpath.top_plane) toolpath.start_z (roundTo 4 rapid_feedIn)
      toolpath.lead_z (fmtQ (roundTo 4 thread.pitch)) t.1 t.2.1 t.2.2

/-- `post_body` as the ordered list of motion blocks it concatenates: the
loop's blocks, and, when `finish_passes > 1`, the loop's final `g_code`
value appended `finish_passes - 1` more times (`""` when the loop never
ran). -/
def post_body_blocks (toolpath : BodyDetails) (thread : ScrewThread)
    (finish_passes : ℤ) (rapid_feedIn : ℚ) : List String :=
  pass_blocks toolpath thread rapid_feedIn ++
    (if 1 < finish_passes then
      List.replicate (finish_passes - 1).toNat
        ((pass_blocks toolpath thread rapid_feedIn).getLastD "")
     else [])

/-- `post_body` itself: the concatenation the Python function returns. -/
def post_body (toolpath : BodyDetails) (thread : ScrewThread)
    (finish_passes : ℤ) (rapid_feedIn : ℚ) : String :=
  String.join (post_body_blocks toolpath thread finish_passes rapid_feedIn)

/-- `post_begin`: `'S{} M3\n\n'.format(round(rpm))`. -/
def post_begin (rpm : ℚ) : String := "S" ++ toString ⌊rpm + 1 / 2⌋ ++ " M3\n\n"

/-- `post_end`: `'M99\n%\n'`. -/
def post_end : String := "M99\n%\n"

/-- The ordered sequence of text blocks `main` writes to the g-code file. -/
def gcode_program (rpm : ℚ) (toolpath : BodyDetails) (thread : ScrewThread)
    (finish_passes : ℤ) (rapid_feedIn : ℚ) : List String :=
  post_begin rpm :: (post_body_blocks toolpath thread finish_passes rapid_feedIn ++ [post_end])

/-! ### Helper lemmas about `roundTo` -/

/-- Evaluate `roundTo` at a concrete input: `k` is the rounded integer at
scale `10 ^ n`. -/
theorem roundTo_eq (n : ℕ) (x y : ℚ) (k : ℤ) (hk : (k : ℚ) / 10 ^ n = y)
    (h1 : (k : ℚ) ≤ x * 10 ^ n + 1 / 2) (h2 : x * 10 ^ n + 1 / 2 < k + 1) :
    roundTo n x = y := by
  unfold roundTo
  rw [Int.floor_eq_iff.mpr ⟨h1, by exact_mod_cast h2⟩, hk]

/-- Rounding to `n` decimals moves a value by at most half an ulp. -/
theorem abs_roundTo_sub (n : ℕ) (x : ℚ) : |roundTo n x - x| ≤ 1 / (2 * 10 ^ n) := by
  unfold roundTo
  have h10 : (0 : ℚ) < 10 ^ n := by positivity
  have hle : ((⌊x * 10 ^ n + 1 / 2⌋ : ℤ) : ℚ) ≤ x * 10 ^ n + 1 / 2 := Int.floor_le _
  have hgt : x * 10 ^ n + 1 / 2 < (⌊x * 10 ^ n + 1 / 2⌋ : ℚ) + 1 := Int.lt_floor_add_one _
  have key : |((⌊x * 10 ^ n + 1 / 2⌋ : ℤ) : ℚ) - x * 10 ^ n| ≤ 1 / 2 :=
    abs_le.mpr ⟨by linarith, by linarith⟩
  have e : ((⌊x * 10 ^ n + 1 / 2⌋ : ℤ) : ℚ) / 10 ^ n - x =
      (((⌊x * 10 ^ n + 1 / 2⌋ : ℤ) : ℚ) - x * 10 ^ n) / 10 ^ n := by
    field_simp
    ring
  rw [e, abs_div, abs_of_pos h10]
  calc |((⌊x * 10 ^ n + 1 / 2⌋ : ℤ) : ℚ) - x * 10 ^ n| / 10 ^ n ≤ (1 / 2) / 10 ^ n := by gcongr
    _ = 1 / (2 * 10 ^ n) := by ring

/-- `roundTo` is monotone. -/
theorem roundTo_mono (n : ℕ) {x y : ℚ} (h : x ≤ y) : roundTo n x ≤ roundTo n y := by
  unfold roundTo
  have h10 : (0 : ℚ) < 10 ^ n := by positivity
  have hf : ((⌊x * 10 ^ n + 1 / 2⌋ : ℤ) : ℚ) ≤ ((⌊y * 10 ^ n + 1 / 2⌋ : ℤ) : ℚ) := by
    exact_mod_cast Int.floor_mono (show x * 10 ^ n + 1 / 2 ≤ y * 10 ^ n + 1 / 2 by nlinarith)
  gcongr

/-- Multiples of `10 ^ (-n)` are fixed by `roundTo n`. -/
theorem roundTo_grid (n : ℕ) (k : ℤ) : roundTo n ((k : ℚ) / 10 ^ n) = (k : ℚ) / 10 ^ n := by
  unfold roundTo
  have h10 : (10 : ℚ) ^ n ≠ 0 := by positivity
  have e : (k : ℚ) / 10 ^ n * 10 ^ n + 1 / 2 = (k : ℚ) + 1 / 2 := by field_simp
  have hfl : ⌊(k : ℚ) + 1 / 2⌋ = k := by
    rw [Int.floor_int_add]
    norm_num
  rw [e, hfl]

/-- Advancing a 4-decimal grid point by at least one ulp and rounding lands
at least one ulp higher. -/
theorem roundTo_step {r x : ℚ} (k : ℤ) (hr : r = (k : ℚ) / 10 ^ 4) (hx : r + 1 / 10 ^ 4 ≤ x) :
    r + 1 / 10 ^ 4 ≤ roundTo 4 x := by
  have e : r + 1 / 10 ^ 4 = ((k + 1 : ℤ) : ℚ) / 10 ^ 4 := by
    rw [hr]; push_cast; ring
  calc r + 1 / 10 ^ 4 = roundTo 4 (((k + 1 : ℤ) : ℚ) / 10 ^ 4) := by rw [roundTo_grid, ← e]
    _ = roundTo 4 (r + 1 / 10 ^ 4) := by rw [← e]
    _ ≤ roundTo 4 x := roundTo_mono 4 hx

/-! ### Helper lemmas about the radius recursion and the pass table -/

/-- Starting from a 4-decimal grid point `r` with `previous_radius = r - base`,
every step of the radius recursion advances strictly, provided each step's
stock increment `s * f` is at least one 4-decimal ulp. -/
theorem radiiAux_chain (base s : ℚ) (fs : List ℚ) :
    ∀ (r : ℚ), (∃ k : ℤ, r = (k : ℚ) / 10 ^ 4) → (∀ f ∈ fs, 1 / 10 ^ 4 ≤ s * f) →
      List.Chain (· < ·) r (radiiAux base s fs (r - base)) := by
  induction fs with
  | nil => intro r _ _; exact List.Chain.nil
  | cons f fs ih =>
    intro r hk hf
    show List.Chain (· < ·) r
      (roundTo 4 (base + s * f + (r - base)) ::
        radiiAux base s fs (roundTo 4 (base + s * f + (r - base)) - base))
    have harg : base + s * f + (r - base) = r + s * f := by ring
    rw [List.chain_cons, harg]
    obtain ⟨k, hkr⟩ := hk
    have hstep : r + 1 / 10 ^ 4 ≤ roundTo 4 (r + s * f) :=
      roundTo_step k hkr (by have := hf f (by simp); linarith)
    refine ⟨by linarith [hstep], ?_⟩
    exact ih (roundTo 4 (r + s * f)) ⟨⌊(r + s * f) * 10 ^ 4 + 1 / 2⌋, rfl⟩
      fun g hg => hf g (by simp [hg])

/-- The last radius the recursion produces is within half an ulp per pass of
the exact value `base + previous + s * (sum of fractions)`. -/
theorem radiiAux_last_close (base s : ℚ) (fs : List ℚ) :
    ∀ (prev d : ℚ), fs ≠ [] →
      |(radiiAux base s fs prev).getLastD d - (base + prev + s * fs.sum)| ≤
        (fs.length : ℚ) * (1 / (2 * 10 ^ 4)) := by
  induction fs with
  | nil => intro prev d h; exact absurd rfl h
  | cons f fs ih =>
    intro prev d _
    show |((roundTo 4 (base + s * f + prev) ::
        radiiAux base s fs (roundTo 4 (base + s * f + prev) - base)).getLastD d) - _| ≤ _
    rw [List.getLastD_cons]
    rcases eq_or_ne fs [] with hfs | hfs
    · subst hfs
      simp only [radiiAux, List.getLastD_nil, List.sum_cons, List.sum_nil, List.length_cons,
        List.length_nil]
      have h := abs_roundTo_sub 4 (base + s * f + prev)
      have e : roundTo 4 (base + s * f + prev) - (base + prev + s * (f + 0)) =
          roundTo 4 (base + s * f + prev) - (base + s * f + prev) := by ring
      rw [e]
      push_cast
      linarith
    · have hcur := abs_roundTo_sub 4 (base + s * f + prev)
      have hih := ih (roundTo 4 (base + s * f + prev) - base) (roundTo 4 (base + s * f + prev)) hfs
      have e : (radiiAux base s fs (roundTo 4 (base + s * f + prev) - base)).getLastD
            (roundTo 4 (base + s * f + prev)) - (base + prev + s * (f :: fs).sum) =
          ((radiiAux base s fs (roundTo 4 (base + s * f + prev) - base)).getLastD
            (roundTo 4 (base + s * f + prev)) -
           (base + (roundTo 4 (base + s * f + prev) - base) + s * fs.sum)) +
          (roundTo 4 (base + s * f + prev) - (base + s * f + prev)) := by
        rw [List.sum_cons]; ring
      rw [e]
      calc |_ + _| ≤ _ + _ := abs_add _ _
        _ ≤ (fs.length : ℚ) * (1 / (2 * 10 ^ 4)) + 1 / (2 * 10 ^ 4) := by gcongr
        _ ≤ ((f :: fs).length : ℚ) * (1 / (2 * 10 ^ 4)) := by
            rw [List.length_cons]; push_cast; ring_nf; linarith

/-- Every successful pass-percentage lookup returns one of the four table
rows. -/
theorem calc_pass_percentages_cases {n : ℤ} {pp : List ℚ}
    (h : calc_pass_percentages n = .ok pp) :
    pp = [1] ∨ pp = [0.65, 0.35] ∨ pp = [0.50, 0.30, 0.20] ∨
      pp = [0.40, 0.27, 0.20, 0.13] := by
  unfold calc_pass_percentages at h
  split at h
  · exact absurd h (by simp)
  · split at h
    · exact Or.inl (Except.ok.inj h).symm
    · split at h
      · exact Or.inr (Or.inl (Except.ok.inj h).symm)
      · split at h
        · exact Or.inr (Or.inr (Or.inl (Except.ok.inj h).symm))
        · exact Or.inr (Or.inr (Or.inr (Except.ok.inj h).symm))

/-- `roundTo` fixes `0`. -/
theorem roundTo_zero (n : ℕ) : roundTo n 0 = 0 := by
  simpa using roundTo_grid n 0

/-! ### Claim theorems -/

/-- C6: the pass-fraction table returns exactly `[1.0]`, `[0.65, 0.35]`,
`[0.50, 0.30, 0.20]` and `[0.40, 0.27, 0.20, 0.13]` for 1–4 passes, and each
returned fraction list sums to `1.0` within `1e-9`. -/
theorem C6_pass_percentage_table :
    calc_pass_percentages 1 = .ok [1.0] ∧
    calc_pass_percentages 2 = .ok [0.65, 0.35] ∧
    calc_pass_percentages 3 = .ok [0.50, 0.30, 0.20] ∧
    calc_pass_percentages 4 = .ok [0.40, 0.27, 0.20, 0.13] ∧
    |([1.0] : List ℚ).sum - 1| ≤ 1 / 10 ^ 9 ∧
    |([0.65, 0.35] : List ℚ).sum - 1| ≤ 1 / 10 ^ 9 ∧
    |([0.50, 0.30, 0.20] : List ℚ).sum - 1| ≤ 1 / 10 ^ 9 ∧
    |([0.40, 0.27, 0.20, 0.13] : List ℚ).sum - 1| ≤ 1 / 10 ^ 9 := by
  refine ⟨?_, ?_, ?_, ?_, ?_, ?_, ?_, ?_⟩ <;>
    norm_num [calc_pass_percentages, List.sum_cons, List.sum_nil]

/-- C7: the pass-fraction lookup succeeds exactly for pass counts 1, 2, 3
and 4, and signals an error for every other integer (in particular 0 and 5). -/
theorem C7_pass_count_validation (n : ℤ) :
    (∃ l, calc_pass_percentages n = .ok l) ↔ (n = 1 ∨ n = 2 ∨ n = 3 ∨ n = 4) := by
  constructor
  · rintro ⟨l, hl⟩
    unfold calc_pass_percentages at hl
    split at hl
    · exact absurd hl (by simp)
    · rename_i h
      omega
  · rintro (h | h | h | h) <;> subst h
    · exact ⟨[1], by norm_num [calc_pass_percentages]⟩
    · exact ⟨[0.65, 0.35], by norm_num [calc_pass_percentages]⟩
    · exact ⟨[0.50, 0.30, 0.20], by norm_num [calc_pass_percentages]⟩
    · exact ⟨[0.40, 0.27, 0.20, 0.13], by norm_num [calc_pass_percentages]⟩

/-- C10: the reflective `vars(self)` validation also checks derived
attributes: a `CuttingTool` whose `rpm` is not positive fails validation even
when all four constructor inputs are positive (and the bare constructor
leaves `rpm = 0.0`); a `ScrewThread` whose `tpi` is not positive fails
validation even when the five spec-listed fields are valid. -/
theorem C10_reflective_validation_checks_derived_fields :
    (∀ t : CuttingTool, 0 < t.diameter → 0 < t.flutes → 0 < t.speed → 0 < t.feed →
      t.rpm ≤ 0 → t.validate = .error "rpm must be > 0.0") ∧
    (∀ d fl sp fe : ℚ, (CuttingTool.init d fl sp fe).rpm = 0) ∧
    (∀ th : ScrewThread, 0 < th.major_diameter → 0 < th.minor_diameter → 0 < th.depth →
      0 < th.pitch → th.minor_diameter < th.major_diameter →
      th.tpi ≤ 0 → th.validate = .error "tpi must be > 0.0") := by
  refine ⟨?_, ?_, ?_⟩
  · intro t h1 h2 h3 h4 h5
    unfold CuttingTool.validate
    rw [if_neg (by linarith), if_neg (by linarith), if_neg (by linarith),
      if_neg (by linarith), if_pos h5]
  · intro d fl sp fe
    rfl
  · intro th h1 h2 h3 h4 h5 h6
    unfold ScrewThread.validate
    rw [if_neg (by linarith), if_neg (by linarith), if_neg (by linarith), if_pos h6]

/-- C8: every feed-adjustment factor `(2r) / (2r + d)` is strictly between 0
and 1 for positive radius and tool diameter, and every per-pass feed rate is
at most the tool's nominal `feed * flutes * rpm`. -/
theorem C8_feed_adjustment_bounds :
    (∀ (radii : List ℚ) (d : ℚ), 0 < d → (∀ r ∈ radii, 0 < r) →
      ∀ c ∈ get_feed_adjustment radii d, 0 < c ∧ c < 1) ∧
    (∀ (tool : CuttingTool) (radii : List ℚ), 0 < tool.diameter → 0 ≤ tool.feed →
      0 ≤ tool.flutes → 0 ≤ tool.rpm → (∀ r ∈ radii, 0 < r) →
      ∀ fr ∈ calc_feed_rate tool radii, fr ≤ tool.feed * tool.flutes * tool.rpm) := by
  constructor
  · intro radii d hd hr c hc
    obtain ⟨r, hrm, rfl⟩ := List.mem_map.mp hc
    have hrp : 0 < r := hr r hrm
    refine ⟨div_pos (by linarith) (by linarith), ?_⟩
    exact (div_lt_one (by linarith)).mpr (by linarith)
  · intro tool radii hd hfe hfl hrpm hr fr hfr
    obtain ⟨a, ham, rfl⟩ := List.mem_map.mp hfr
    obtain ⟨r, hrm, rfl⟩ := List.mem_map.mp ham
    have hrp : 0 < r := hr r hrm
    have hfac : r * 2 / (r * 2 + tool.diameter) ≤ 1 :=
      le_of_lt ((div_lt_one (by linarith)).mpr (by linarith))
    have h1 : tool.feed * (r * 2) / (r * 2 + tool.diameter) ≤ tool.feed := by
      rw [mul_div_assoc]
      calc tool.feed * (r * 2 / (r * 2 + tool.diameter)) ≤ tool.feed * 1 := by gcongr
        _ = tool.feed := mul_one _
    calc tool.feed * (r * 2) / (r * 2 + tool.diameter) * tool.flutes * tool.rpm ≤
          tool.feed * tool.flutes * tool.rpm := by gcongr
      _ = tool.feed * tool.flutes * tool.rpm := rfl

/-- C8 witness: concrete instance with all hypotheses discharged. -/
theorem C8_feed_adjustment_bounds_witness :
    (∀ c ∈ get_feed_adjustment [0.125] 0.25, 0 < c ∧ c < 1) ∧
    (∀ fr ∈ calc_feed_rate ⟨0.25, 4, 100, 0.001, 1528⟩ [0.125],
      fr ≤ (0.001 : ℚ) * 4 * 1528) :=
  ⟨C8_feed_adjustment_bounds.1 [0.125] 0.25 (by norm_num)
      (by intro r hr; rw [List.mem_singleton] at hr; rw [hr]; norm_num),
   C8_feed_adjustment_bounds.2 ⟨0.25, 4, 100, 0.001, 1528⟩ [0.125] (by norm_num) (by norm_num)
      (by norm_num) (by norm_num)
      (by intro r hr; rw [List.mem_singleton] at hr; rw [hr]; norm_num)⟩

/-- C3 (code bug evidence): with `minor_diameter = major_diameter = 0.5` and
all other fields valid, `tmill_dict.py`'s thread check accepts the thread
(its `>` comparison lets equality through, contradicting its own error
message), while `thread_mill.py`'s `ScrewThread.validate` rejects it. -/
theorem C3_equal_diameters_accepted_by_dict_check :
    ThreadInfo.check ⟨0.5, 0.5, 0.05, 0.25, 20⟩ = .ok ⟨0.5, 0.5, 0.05, 0.25, 20⟩ ∧
    ScrewThread.validate ⟨0.5, 0.5, 0.05, 0.25, 20, 0.05⟩ =
      .error "Minor diameter must be less than Major diameter" := by
  constructor
  · norm_num [ThreadInfo.check]
  · norm_num [ScrewThread.validate]

/-- C2 (code bug evidence): with `tool.diameter = thread.minor_diameter
= 0.25` and every other field valid, `BodyDetails.__init__` accepts the pair
and produces a plan (its `>` comparison lets equality through, contradicting
its own error message), so no `ConstraintViolation` is signalled. -/
theorem C2_equal_tool_diameter_accepted :
    ∃ b : BodyDetails,
      BodyDetails.make ⟨0.5, 0.25, 0.05, 0.25, 20, 0.05⟩ ⟨0.25, 4, 100, 0.001, 1528⟩ 1 =
        .ok b := by
  have hT : ScrewThread.validate ⟨0.5, 0.25, 0.05, 0.25, 20, 0.05⟩ = .ok () := by
    norm_num [ScrewThread.validate]
  have ht : CuttingTool.validate ⟨0.25, 4, 100, 0.001, 1528⟩ = .ok () := by
    norm_num [CuttingTool.validate]
  have hpp : calc_pass_percentages 1 = .ok [1] := by
    norm_num [calc_pass_percentages]
  unfold BodyDetails.make
  rw [hT, ht]
  dsimp only
  rw [if_neg (by norm_num), hpp]
  exact ⟨_, rfl⟩

/-- The lead-arc list is pointwise `round(radius * sin_45, 4)`. -/
theorem calc_lead_arcs_spec (radii : List ℚ) :
    (calc_lead_arcs radii).length = radii.length ∧
    ∀ i : ℕ, (calc_lead_arcs radii).getD i 0 = roundTo 4 (radii.getD i 0 * sin_45) := by
  constructor
  · simp [calc_lead_arcs]
  · intro i
    unfold calc_lead_arcs
    rw [List.getD_eq_getElem?_getD, List.getElem?_map, List.getD_eq_getElem?_getD]
    cases hx : radii[i]? with
    | none => simp [roundTo_zero]
    | some r => simp

/-- C9: in every successfully constructed plan, each pass's lead-arc radius
equals `round(radius * sin_45, 4)` for that pass's toolpath radius. -/
theorem C9_lead_arc_radius (thread : ScrewThread) (tool : CuttingTool) (n : ℤ)
    (plan : BodyDetails) (h : BodyDetails.make thread tool n = .ok plan) :
    plan.lead_arcs.length = plan.radii.length ∧
    ∀ i : ℕ, plan.lead_arcs.getD i 0 = roundTo 4 (plan.radii.getD i 0 * sin_45) := by
  unfold BodyDetails.make at h
  split at h
  · exact absurd h (by simp)
  · split at h
    · exact absurd h (by simp)
    · split at h
      · exact absurd h (by simp)
      · split at h
        · exact absurd h (by simp)
        · obtain rfl := Except.ok.inj h
          exact calc_lead_arcs_spec _

/-- C9 witness: the spec's end-to-end example plan. -/
theorem C9_lead_arc_radius_witness :
    ∃ p : BodyDetails,
      BodyDetails.make ⟨0.5, 0.438, 0.05, 0.25, 20, 0.05⟩ ⟨0.25, 4, 100, 0.001, 1528⟩ 1 =
        .ok p ∧
      (p.lead_arcs.length = p.radii.length ∧
        ∀ i : ℕ, p.lead_arcs.getD i 0 = roundTo 4 (p.radii.getD i 0 * sin_45)) := by
  have hmk : ∃ p : BodyDetails,
      BodyDetails.make ⟨0.5, 0.438, 0.05, 0.25, 20, 0.05⟩ ⟨0.25, 4, 100, 0.001, 1528⟩ 1 =
        .ok p := by
    have hT : ScrewThread.validate ⟨0.5, 0.438, 0.05, 0.25, 20, 0.05⟩ = .ok () := by
      norm_num [ScrewThread.validate]
    have ht : CuttingTool.validate ⟨0.25, 4, 100, 0.001, 1528⟩ = .ok () := by
      norm_num [CuttingTool.validate]
    have hpp : calc_pass_percentages 1 = .ok [1] := by
      norm_num [calc_pass_percentages]
    unfold BodyDetails.make
    rw [hT, ht]
    dsimp only
    rw [if_neg (by norm_num), hpp]
    exact ⟨_, rfl⟩
  obtain ⟨p, hp⟩ := hmk
  exact ⟨p, hp, C9_lead_arc_radius _ _ _ p hp⟩

/-- C1 counterexample: a valid thread/tool pair (minor < major, positive
base radius) and pass count 2 for which the last radius does NOT equal
`round(base_radius + total_stock, 4)`: the per-pass 4-decimal rounding loses
the final ulp (the recursion yields 0.0001 where the claim demands 0.0002). -/
theorem C1_last_radius_counterexample :
    calc_pass_percentages 2 = .ok [0.65, 0.35] ∧
    ((0.0002 : ℚ) < 0.0004) ∧
    0 < roundTo 5 (((0.0002 : ℚ) - 0.0001) / 2) ∧
    (calc_toolpath_radii ⟨0.0004, 0.0002, 0.05, 0.25, 20, 0.05⟩ [0.65, 0.35] 0.0001).getLastD 0 ≠
      roundTo 4 (roundTo 5 (((0.0002 : ℚ) - 0.0001) / 2) +
        roundTo 5 (((0.0004 : ℚ) - 0.0002) / 2)) := by
  have hb : roundTo 5 (((0.0002 : ℚ) - 0.0001) / 2) = 0.00005 :=
    roundTo_eq 5 _ _ 5 (by norm_num) (by norm_num) (by norm_num)
  have hs : roundTo 5 (((0.0004 : ℚ) - 0.0002) / 2) = 0.0001 :=
    roundTo_eq 5 _ _ 10 (by norm_num) (by norm_num) (by norm_num)
  have h1 : roundTo 4 ((0.00005 : ℚ) + 0.0001 * 0.65 + 0) = 0.0001 :=
    roundTo_eq 4 _ _ 1 (by norm_num) (by norm_num) (by norm_num)
  have h2 : roundTo 4 ((0.00005 : ℚ) + 0.0001 * 0.35 + (0.0001 - 0.00005)) = 0.0001 :=
    roundTo_eq 4 _ _ 1 (by norm_num) (by norm_num) (by norm_num)
  have h3 : roundTo 4 ((0.00005 : ℚ) + 0.0001) = 0.0002 :=
    roundTo_eq 4 _ _ 2 (by norm_num) (by norm_num) (by norm_num)
  refine ⟨by norm_num [calc_pass_percentages], by norm_num, by rw [hb]; norm_num, ?_⟩
  unfold calc_toolpath_radii
  dsimp only
  rw [hb, hs, h3]
  simp only [radiiAux]
  rw [h1]
  rw [h2]
  norm_num [List.getLastD]

/-- C1 (amended): for every valid thread/tool pair and supported pass count,
the last element of the radii list is within `2.5e-4` (five half-ulps at 4
decimals) of `round(base_radius + total_stock, 4)`; exact equality can fail
by the counterexample. -/
theorem C1_last_radius_near_full_depth (thread : ScrewThread) (tool_diameter : ℚ) (n : ℤ)
    (pp : List ℚ) (hpp : calc_pass_percentages n = .ok pp)
    (hminor : thread.minor_diameter < thread.major_diameter)
    (hbase : 0 < roundTo 5 ((thread.minor_diameter - tool_diameter) / 2)) :
    |(calc_toolpath_radii thread pp tool_diameter).getLastD 0 -
      roundTo 4 (roundTo 5 ((thread.minor_diameter - tool_diameter) / 2) +
        roundTo 5 ((thread.major_diameter - thread.minor_diameter) / 2))| ≤ 1 / 4000 := by
  set base := roundTo 5 ((thread.minor_diameter - tool_diameter) / 2) with hbdef
  set s := roundTo 5 ((thread.major_diameter - thread.minor_diameter) / 2) with hsdef
  have hfacts : pp.sum = 1 ∧ ((pp.length : ℚ) ≤ 4) ∧ pp ≠ [] := by
    rcases calc_pass_percentages_cases hpp with h | h | h | h <;> subst h <;>
      exact ⟨by norm_num [List.sum_cons, List.sum_nil], by norm_num, by simp⟩
  obtain ⟨hsum, hlen, hne⟩ := hfacts
  have h1 := radiiAux_last_close base s pp 0 0 hne
  rw [hsum] at h1
  have h1' : |(radiiAux base s pp 0).getLastD 0 - (base + s)| ≤
      (pp.length : ℚ) * (1 / (2 * 10 ^ 4)) := by
    have e2 : base + 0 + s * 1 = base + s := by ring
    rwa [e2] at h1
  have h2 := abs_roundTo_sub 4 (base + s)
  show |(radiiAux base s pp 0).getLastD 0 - roundTo 4 (base + s)| ≤ 1 / 4000
  have hlen' : (pp.length : ℚ) * (1 / (2 * 10 ^ 4)) ≤ 4 * (1 / (2 * 10 ^ 4)) := by gcongr <;> norm_num
  have htri : |(radiiAux base s pp 0).getLastD 0 - roundTo 4 (base + s)| ≤
      |(radiiAux base s pp 0).getLastD 0 - (base + s)| + |roundTo 4 (base + s) - (base + s)| := by
    have e3 : (radiiAux base s pp 0).getLastD 0 - roundTo 4 (base + s) =
        ((radiiAux base s pp 0).getLastD 0 - (base + s)) +
          ((base + s) - roundTo 4 (base + s)) := by ring
    rw [e3]
    calc |_ + _| ≤ _ + _ := abs_add _ _
      _ = _ + |roundTo 4 (base + s) - (base + s)| := by
        rw [abs_sub_comm (base + s) (roundTo 4 (base + s))]
  linarith

/-- C1 witness: the amended bound at the spec's end-to-end example. -/
theorem C1_last_radius_near_full_depth_witness :
    |(calc_toolpath_radii ⟨0.5, 0.438, 0.05, 0.25, 20, 0.05⟩ [1] 0.25).getLastD 0 -
      roundTo 4 (roundTo 5 (((0.438 : ℚ) - 0.25) / 2) +
        roundTo 5 (((0.5 : ℚ) - 0.438) / 2))| ≤ 1 / 4000 :=
  C1_last_radius_near_full_depth ⟨0.5, 0.438, 0.05, 0.25, 20, 0.05⟩ 0.25 1 [1]
    (by norm_num [calc_pass_percentages]) (by norm_num)
    (by
      show (0 : ℚ) < roundTo 5 (((0.438 : ℚ) - 0.25) / 2)
      rw [roundTo_eq 5 (((0.438 : ℚ) - 0.25) / 2) 0.094 9400 (by norm_num) (by norm_num)
        (by norm_num)]
      norm_num)

/-- C4 counterexample: a valid thread/tool pair (minor < major, tool fits,
positive base radius) and pass count 2 whose radii list is NOT strictly
increasing: both radii round to 0.0001. -/
theorem C4_radii_not_strictly_increasing_counterexample :
    calc_pass_percentages 2 = .ok [0.65, 0.35] ∧
    ((0.0002 : ℚ) < 0.00022) ∧ ((0 : ℚ) < 0.0001) ∧ ((0.0001 : ℚ) < 0.0002) ∧
    0 < roundTo 5 (((0.0002 : ℚ) - 0.0001) / 2) ∧
    ¬ List.Chain' (· < ·)
      (calc_toolpath_radii ⟨0.00022, 0.0002, 0.05, 0.25, 20, 0.05⟩ [0.65, 0.35] 0.0001) := by
  have hb : roundTo 5 (((0.0002 : ℚ) - 0.0001) / 2) = 0.00005 :=
    roundTo_eq 5 _ _ 5 (by norm_num) (by norm_num) (by norm_num)
  have hs : roundTo 5 (((0.00022 : ℚ) - 0.0002) / 2) = 0.00001 :=
    roundTo_eq 5 _ _ 1 (by norm_num) (by norm_num) (by norm_num)
  have h1 : roundTo 4 ((0.00005 : ℚ) + 0.00001 * 0.65 + 0) = 0.0001 :=
    roundTo_eq 4 _ _ 1 (by norm_num) (by norm_num) (by norm_num)
  have h2 : roundTo 4 ((0.00005 : ℚ) + 0.00001 * 0.35 + (0.0001 - 0.00005)) = 0.0001 :=
    roundTo_eq 4 _ _ 1 (by norm_num) (by norm_num) (by norm_num)
  refine ⟨by norm_num [calc_pass_percentages], by norm_num, by norm_num, by norm_num,
    by rw [hb]; norm_num, ?_⟩
  unfold calc_toolpath_radii
  dsimp only
  rw [hb, hs]
  simp only [radiiAux]
  rw [h1]
  rw [h2]
  simp [List.chain'_cons, List.chain'_singleton]

/-- C4 (amended): for every valid thread/tool pair and supported pass count,
the radii list is strictly increasing provided the rounded total stock is at
least `0.001` (so each pass's stock increment survives the 4-decimal
rounding); it can stall for smaller stock by the counterexample. -/
theorem C4_radii_strictly_increasing_amended (thread : ScrewThread) (tool_diameter : ℚ)
    (n : ℤ) (pp : List ℚ) (hpp : calc_pass_percentages n = .ok pp)
    (hminor : thread.minor_diameter < thread.major_diameter)
    (htool : 0 < tool_diameter) (hfit : tool_diameter < thread.minor_diameter)
    (hstock : 1 / 1000 ≤ roundTo 5 ((thread.major_diameter - thread.minor_diameter) / 2)) :
    List.Chain' (· < ·) (calc_toolpath_radii thread pp tool_diameter) := by
  set base := roundTo 5 ((thread.minor_diameter - tool_diameter) / 2) with hbdef
  set s := roundTo 5 ((thread.major_diameter - thread.minor_diameter) / 2) with hsdef
  have hf : ∀ f ∈ pp, 1 / 10 ^ 4 ≤ s * f := by
    intro f hfm
    have hfge : (13 : ℚ) / 100 ≤ f := by
      rcases calc_pass_percentages_cases hpp with h | h | h | h <;> subst h <;>
        fin_cases hfm <;> norm_num
    exact le_trans (by norm_num)
      (mul_le_mul hstock hfge (by norm_num) (by linarith))
  cases pp with
  | nil => exact List.chain'_nil
  | cons f fs =>
    show List.Chain (· < ·) (roundTo 4 (base + s * f + 0))
      (radiiAux base s fs (roundTo 4 (base + s * f + 0) - base))
    exact radiiAux_chain base s fs (roundTo 4 (base + s * f + 0))
      ⟨⌊(base + s * f + 0) * 10 ^ 4 + 1 / 2⌋, rfl⟩
      fun g hg => hf g (List.mem_cons_of_mem f hg)

/-- C4 witness: strictly increasing radii at the spec's example thread with
two passes. -/
theorem C4_radii_strictly_increasing_amended_witness :
    List.Chain' (· < ·)
      (calc_toolpath_radii ⟨0.5, 0.438, 0.05, 0.25, 20, 0.05⟩ [0.65, 0.35] 0.25) :=
  C4_radii_strictly_increasing_amended ⟨0.5, 0.438, 0.05, 0.25, 20, 0.05⟩ 0.25 2 [0.65, 0.35]
    (by norm_num [calc_pass_percentages]) (by norm_num) (by norm_num) (by norm_num)
    (by
      show (1 : ℚ) / 1000 ≤ roundTo 5 (((0.5 : ℚ) - 0.438) / 2)
      rw [roundTo_eq 5 (((0.5 : ℚ) - 0.438) / 2) 0.031 3100 (by norm_num) (by norm_num)
        (by norm_num)]
      norm_num)

/-- Dropping all but one element of a list leaves its last element. -/
theorem drop_length_sub_one {α : Type _} : ∀ (l : List α) (x : α), l.getLast? = some x →
    l.drop (l.length - 1) = [x] := by
  intro l
  induction l with
  | nil => intro x h; simp at h
  | cons a m ih =>
    intro x h
    cases m with
    | nil =>
      simp at h
      subst h
      rfl
    | cons b m' =>
      rw [List.getLast?_cons_cons] at h
      have h1 : (a :: b :: m').length - 1 = ((b :: m').length - 1) + 1 := by simp
      rw [h1, List.drop_succ_cons]
      exact ih x h

/-- C5: for a plan with matching per-pass lists and `finish_passes = N ≥ 1`,
the emitter produces exactly `pass_count + (N - 1)` motion blocks, the last
`N` of them are one identical block repeated, and the assembled program ends
with the postamble. -/
theorem C5_motion_block_count_and_finish_repetition
    (rpm : ℚ) (toolpath : BodyDetails) (thread : ScrewThread) (N : ℤ) (rapid : ℚ)
    (hl1 : toolpath.lead_arcs.length = toolpath.radii.length)
    (hl2 : toolpath.feed.length = toolpath.radii.length)
    (hne : toolpath.radii ≠ []) (hN : 1 ≤ N) :
    (post_body_blocks toolpath thread N rapid).length =
      toolpath.radii.length + (N - 1).toNat ∧
    (∃ b, (post_body_blocks toolpath thread N rapid).drop (toolpath.radii.length - 1) =
      List.replicate N.toNat b) ∧
    (gcode_program rpm toolpath thread N rapid).getLast? = some post_end := by
  set B := pass_blocks toolpath thread rapid with hB
  have hBlen : B.length = toolpath.radii.length := by
    rw [hB]
    unfold pass_blocks
    rw [List.length_map, List.length_zip, List.length_zip, hl1, hl2]
    simp
  have hBne : B ≠ [] := by
    rw [← List.length_pos, hBlen, List.length_pos]
    exact hne
  obtain ⟨x, hx⟩ : ∃ x, B.getLast? = some x := by
    cases hBe : B with
    | nil => exact absurd hBe hBne
    | cons a m => exact ⟨_, List.getLast?_cons⟩
  have hgetD : B.getLastD "" = x := by rw [List.getLastD_eq_getLast?, hx]; rfl
  have hdropB : B.drop (toolpath.radii.length - 1) = [x] := by
    rw [← hBlen]
    exact drop_length_sub_one B x hx
  refine ⟨?_, ⟨x, ?_⟩, ?_⟩
  · unfold post_body_blocks
    rw [← hB, List.length_append, hBlen]
    by_cases h : 1 < N
    · rw [if_pos h, List.length_replicate]
    · rw [if_neg h]
      have hN1 : N = 1 := by omega
      subst hN1
      simp
  · unfold post_body_blocks
    rw [← hB, List.drop_append_eq_append_drop, hdropB]
    have h0 : toolpath.radii.length - 1 - B.length = 0 := by
      rw [hBlen]; omega
    rw [h0, List.drop_zero, hgetD]
    by_cases h : 1 < N
    · rw [if_pos h]
      have hN2 : N.toNat = (N - 1).toNat + 1 := by omega
      rw [hN2, List.replicate_succ]
      rfl
    · rw [if_neg h]
      have hN1 : N = 1 := by omega
      subst hN1
      rfl
  · show ((post_begin rpm :: post_body_blocks toolpath thread N rapid) ++ [post_end]).getLast? =
      some post_end
    exact List.getLast?_concat _

/-- C5 witness: a one-pass plan with two finishing passes. -/
theorem C5_motion_block_count_and_finish_repetition_witness :
    (post_body_blocks ⟨[1], [0.125], [0.0884], [3.056], 0.25, 0.0063, -0.0563⟩
        ⟨0.5, 0.438, 0.05, 0.25, 20, 0.05⟩ 2 20).length =
      ([(0.125 : ℚ)] : List ℚ).length + ((2 : ℤ) - 1).toNat ∧
    (∃ b, (post_body_blocks ⟨[1], [0.125], [0.0884], [3.056], 0.25, 0.0063, -0.0563⟩
        ⟨0.5, 0.438, 0.05, 0.25, 20, 0.05⟩ 2 20).drop (([(0.125 : ℚ)] : List ℚ).length - 1) =
      List.replicate (2 : ℤ).toNat b) ∧
    (gcode_program 1528 ⟨[1], [0.125], [0.0884], [3.056], 0.25, 0.0063, -0.0563⟩
        ⟨0.5, 0.438, 0.05, 0.25, 20, 0.05⟩ 2 20).getLast? = some post_end :=
  C5_motion_block_count_and_finish_repetition 1528
    ⟨[1], [0.125], [0.0884], [3.056], 0.25, 0.0063, -0.0563⟩
    ⟨0.5, 0.438, 0.05, 0.25, 20, 0.05⟩ 2 20 rfl rfl (by simp) (by norm_num)
